import Mathlib

/-!
Verification of the crawl orchestration and extraction engine of a scrapy-based
website scraper (spiders: SiteMapScraper, WebsiteLinksScraper, ContactScraper).

The embedding is shallow and executable:
* Python strings are modelled as lists of characters (`Str`), with the string
  primitives the spiders use (rstrip, strip, lower, split, replace, substring
  membership) implemented structurally so the kernel can evaluate them.
* Parsed HTML/XML documents (BeautifulSoup trees) are modelled by the
  first-order rose-tree type `Forest`.  Each element node carries a `nid`
  field modelling Python object identity (needed because the cleaning code
  keeps stale references to decomposed elements); it is otherwise inert.
* The scrapy engine is modelled as a plain FIFO queue of requests: the spider
  yields requests, the engine fetches them in order and invokes the spider
  callbacks.  The library-level duplicate-request filter is outside the
  spiders' own code and is not part of the model; the frontier logic under
  verification is exactly the spiders' visited/excluded/path-exclusion logic.
* Library collaborators (LinkExtractor output, the HTTP layer, urllib's
  urljoin/urlparse, the `re` regex engine, the phonenumbers matcher) enter as
  parameters or as event streams, as the spec treats them as collaborators.
-/

set_option synthInstance.maxSize 4000

set_option maxRecDepth 8000

/-! ## Python string primitives over lists of characters -/

/-- Python strings, modelled as lists of characters so that every operation
reduces in the kernel. -/
abbrev Str := List Char

/-- Python substring membership `t in s` (for strings). -/
def containsSub (t : Str) : Str → Bool
  | [] => t.isEmpty
  | c :: rest => t.isPrefixOf (c :: rest) || containsSub t rest

/-- Python `str.lower()` (ASCII case folding suffices for the marker lists). -/
def lowerStr (s : Str) : Str := s.map Char.toLower

/-- Python `str.split(sep)` for a one-character separator: keeps empty parts. -/
def splitOnChar (sep : Char) : Str → List Str
  | [] => [[]]
  | c :: rest =>
      if c = sep then [] :: splitOnChar sep rest
      else
        match splitOnChar sep rest with
        | [] => [[c]]
        | h :: t => (c :: h) :: t

/-- Python `str.strip()`: drop whitespace from both ends. -/
def pyStrip (s : Str) : Str :=
  ((s.dropWhile Char.isWhitespace).reverse.dropWhile Char.isWhitespace).reverse

/-- Python `str.rstrip('/')`: drop every trailing slash.  This is the only URL
normalization the spiders perform. -/
def rstripSlash (s : Str) : Str :=
  (s.reverse.dropWhile (fun c => c = '/')).reverse

/-- Python `str.split()` with no argument: whitespace runs separate words,
no empty words are produced. -/
def pyWords (s : Str) : List Str :=
  let step : Char → Str × List Str → Str × List Str :=
    fun c acc =>
      if c.isWhitespace then ([], if acc.1 = [] then acc.2 else acc.1 :: acc.2)
      else (c :: acc.1, acc.2)
  let r := s.foldr step ([], [])
  if r.1 = [] then r.2 else r.1 :: r.2

/-- Fuel-driven worker for `pyReplace` (the fuel is the string length, which
bounds the number of scanning steps). -/
def pyReplaceGo (old new : Str) : Nat → Str → Str
  | _, [] => []
  | 0, s => s
  | fuel + 1, c :: rest =>
      if old ≠ [] ∧ old.isPrefixOf (c :: rest) then
        new ++ pyReplaceGo old new fuel ((c :: rest).drop old.length)
      else c :: pyReplaceGo old new fuel rest

/-- Python `str.replace(old, new)`: replace all non-overlapping occurrences,
left to right. -/
def pyReplace (old new s : Str) : Str := pyReplaceGo old new s.length s

/-- Python `list(set(l))` for string lists.  CPython iterates the set in an
unspecified order; we keep the first occurrence of each element, which is one
admissible order.  No claim depends on the order, only on membership. -/
def pySetAux (seen : List Str) : List Str → List Str
  | [] => []
  | a :: rest =>
      if a ∈ seen then pySetAux seen rest
      else a :: pySetAux (a :: seen) rest

/-- Deduplication as performed by `list(set(...))` in the spiders. -/
def pySetList (l : List Str) : List Str := pySetAux [] l

/-! ## The crawl frontier (SiteMapScraper)

State and callbacks of `SiteMapScraper` (src/scraper/spiders/site_scraper.py).
`visited` is kept as the insertion-ordered list of the Python set
`self.visited_urls` (the code only ever adds elements, so the list is the
whole mutation history of the set; list membership is set membership). -/

/-- The mutable per-job frontier state of `SiteMapScraper`:
`visited_urls`, `excluded_urls` and `path_exclusions`. -/
structure CrawlState where
  visited : List Str
  excludedUrls : List Str
  pathExclusions : List Str
  deriving DecidableEq

/-- A scrapy `Request` yielded by the spider, distinguished by its callback:
`parse` for page requests, `_parse_sitemap` for sitemap requests. -/
inductive Req where
  | page (url : Str)
  | sitemap (url : Str)
  deriving DecidableEq

/-- `SiteMapScraper.is_url_excluded`: rstrip the URL, then exact membership in
`excluded_urls`. -/
def isUrlExcluded (s : CrawlState) (url : Str) : Bool :=
  decide (rstripSlash url ∈ s.excludedUrls)

/-- `SiteMapScraper.is_path_exclusion`: rstrip the URL, then compare with each
stored path: equal, or nested strictly below it. -/
def isPathExclusion (s : CrawlState) (url : Str) : Bool :=
  let u := rstripSlash url
  s.pathExclusions.any (fun p => u = p || (p ++ [ '/' ]).isPrefixOf u)

/-- The guarded discovery loop shared verbatim by `SiteMapScraper.parse`
(lines 248-255, over extracted links) and `SiteMapScraper._parse_sitemap`
(lines 276-285, over sitemap leaf locations): rstrip each URL, check it
against visited/excluded/path-exclusions, and on success add it to
`visited_urls` and yield a `Request` with callback `parse` - insertion and
enqueue are one step of the same loop iteration. -/
def processNewUrls (s : CrawlState) : List Str → CrawlState × List Req
  | [] => (s, [])
  | link :: rest =>
      let u := rstripSlash link
      if u ∉ s.visited ∧ isUrlExcluded s u = false ∧ isPathExclusion s u = false then
        let s2 : CrawlState := { s with visited := s.visited ++ [u] }
        let r := processNewUrls s2 rest
        (r.1, Req.page u :: r.2)
      else processNewUrls s rest

/-- Frontier effect of `SiteMapScraper.parse`: skip the page if the response
URL (rstripped) is excluded, otherwise run the guarded discovery loop on the
links the `LinkExtractor` returned for the page. -/
def parseCb (s : CrawlState) (respUrl : Str) (links : List Str) : CrawlState × List Req :=
  let currentUrl := rstripSlash respUrl
  if isUrlExcluded s currentUrl = true ∨ isPathExclusion s currentUrl = true then (s, [])
  else processNewUrls s links

/-- Contents of a fetched sitemap document: the `<sitemap><loc>` texts and the
`<url><loc>` texts, in document order. -/
structure SitemapDoc where
  sitemapLocs : List Str
  urlLocs : List Str
  deriving DecidableEq

/-- Frontier effect of `SiteMapScraper._parse_sitemap`: on a non-200 response
nothing happens; on a 200 response every nested `<sitemap><loc>` is yielded as
a new `_parse_sitemap` request with no check of any kind, and every
`<url><loc>` leaf goes through the guarded discovery loop. -/
def parseSitemapCb (s : CrawlState) (resp : Option SitemapDoc) : CrawlState × List Req :=
  match resp with
  | none => (s, [])
  | some d =>
      let nested := d.sitemapLocs.map Req.sitemap
      let r := processNewUrls s d.urlLocs
      (r.1, nested ++ r.2)

/-- Static environment of one sitemap-mode crawl job: the seed, the sitemap
candidates discovered at construction time, the exclusion sets, and the
collaborators (what the LinkExtractor yields for each fetched page, and what
each sitemap URL resolves to; `none` models a non-200 sitemap response). -/
structure CrawlEnv where
  seedUrl : Str
  sitemapUrls : List Str
  excludedUrls : List Str
  pathExclusions : List Str
  pageLinks : Str → List Str
  sitemapResp : Str → Option SitemapDoc

/-- One crawl job in flight: frontier state, the engine's FIFO request queue,
and the log of requests fetched so far. -/
structure JobState where
  st : CrawlState
  queue : List Req
  fetched : List Req

/-- `SiteMapScraper.start_requests` plus `__init__`: `visited_urls` starts
empty (the seed is NOT inserted), the queue holds one `_parse_sitemap` request
per discovered sitemap URL followed by a `parse` request for the seed. -/
def initJob (env : CrawlEnv) : JobState :=
  { st := { visited := [], excludedUrls := env.excludedUrls,
            pathExclusions := env.pathExclusions },
    queue := env.sitemapUrls.map Req.sitemap ++ [Req.page (rstripSlash env.seedUrl)],
    fetched := [] }

/-- One engine step: fetch the request at the head of the queue, run the
matching spider callback, append the newly yielded requests to the queue. -/
def stepJob (env : CrawlEnv) (j : JobState) : JobState :=
  match j.queue with
  | [] => j
  | r :: rest =>
      match r with
      | Req.page u =>
          let out := parseCb j.st u (env.pageLinks u)
          { st := out.1, queue := rest ++ out.2, fetched := j.fetched ++ [r] }
      | Req.sitemap u =>
          let out := parseSitemapCb j.st (env.sitemapResp u)
          { st := out.1, queue := rest ++ out.2, fetched := j.fetched ++ [r] }

/-- The job after `n` engine steps. -/
def runJob (env : CrawlEnv) : Nat → JobState
  | 0 => initJob env
  | n + 1 => stepJob env (runJob env n)

/-- Occurrences of the string `u` in a string list. -/
def countStr (u : Str) (l : List Str) : Nat :=
  l.countP (fun x => decide (x = u))

/-- Occurrences of a `parse` request for `u` in a request list. -/
def countPageReq (u : Str) (l : List Req) : Nat :=
  l.countP (fun r => decide (r = Req.page u))

/-! ### Invariant: the guarded discovery loop inserts and enqueues atomically -/

theorem processNewUrls_spec (s : CrawlState) (urls : List Str)
    (h : s.visited.Nodup) :
    ∃ added : List Str,
      (processNewUrls s urls).1 =
        { s with visited := s.visited ++ added } ∧
      (processNewUrls s urls).2 = added.map Req.page ∧
      (s.visited ++ added).Nodup := by
  induction urls generalizing s with
  | nil => exact ⟨[], by simp [processNewUrls], by simp [processNewUrls], by simpa using h⟩
  | cons link rest ih =>
      by_cases hg : rstripSlash link ∉ s.visited ∧
          isUrlExcluded s (rstripSlash link) = false ∧
          isPathExclusion s (rstripSlash link) = false
      · have h2 : (s.visited ++ [rstripSlash link]).Nodup := by
          simpa [List.nodup_append] using ⟨h, hg.1⟩
        obtain ⟨added, ha, hb, hc⟩ :=
          ih { s with visited := s.visited ++ [rstripSlash link] } h2
        refine ⟨rstripSlash link :: added, ?_, ?_, ?_⟩
        · simp only [processNewUrls, if_pos hg]
          simpa [List.append_assoc] using ha
        · simp only [processNewUrls, if_pos hg]
          simpa using hb
        · simpa [List.append_assoc] using hc
      · obtain ⟨added, ha, hb, hc⟩ := ih s h
        exact ⟨added, by simp only [processNewUrls, if_neg hg]; exact ha,
               by simp only [processNewUrls, if_neg hg]; exact hb, hc⟩

/-- Job invariant: the visited list never holds duplicates, and every `parse`
request ever created is accounted for either by the startup queue or by
exactly one insertion into `visited`. -/
def JobInv (env : CrawlEnv) (j : JobState) : Prop :=
  j.st.visited.Nodup ∧
  ∀ u : Str, countPageReq u (j.fetched ++ j.queue) =
    countPageReq u (initJob env).queue + countStr u j.st.visited

theorem countPageReq_append (u : Str) (a b : List Req) :
    countPageReq u (a ++ b) = countPageReq u a + countPageReq u b := by
  simp [countPageReq, List.countP_append]

theorem countStr_append (u : Str) (a b : List Str) :
    countStr u (a ++ b) = countStr u a + countStr u b := by
  simp [countStr, List.countP_append]

theorem countPageReq_cons (u : Str) (r : Req) (l : List Req) :
    countPageReq u (r :: l) =
      (if r = Req.page u then 1 else 0) + countPageReq u l := by
  by_cases h : r = Req.page u <;> simp [countPageReq, List.countP_cons, h, Nat.add_comm]

theorem countPageReq_nil (u : Str) : countPageReq u [] = 0 := by
  simp [countPageReq]

theorem countPageReq_map_page (u : Str) (l : List Str) :
    countPageReq u (l.map Req.page) = countStr u l := by
  simp only [countPageReq, countStr, List.countP_map]
  apply List.countP_congr
  intro x _
  simp [Function.comp, Req.page.injEq]

theorem countPageReq_map_sitemap (u : Str) (l : List Str) :
    countPageReq u (l.map Req.sitemap) = 0 := by
  simp [countPageReq, List.countP_map, Function.comp]

theorem stepJob_inv (env : CrawlEnv) (j : JobState) (h : JobInv env j) :
    JobInv env (stepJob env j) := by
  obtain ⟨hn, hc⟩ := h
  match hq : j.queue with
  | [] => simpa [JobInv, stepJob, hq] using ⟨hn, by
      intro u
      have := hc u
      simpa [hq] using this⟩
  | r :: rest =>
      match r with
      | Req.page u0 =>
          simp only [JobInv, stepJob, hq]
          unfold parseCb
          by_cases hx : isUrlExcluded j.st (rstripSlash u0) = true ∨
              isPathExclusion j.st (rstripSlash u0) = true
          · rw [if_pos hx]
            refine ⟨hn, ?_⟩
            intro u
            have hthis := hc u
            rw [hq] at hthis
            simp only [countPageReq_append, countPageReq_cons, countPageReq_nil]
              at hthis ⊢
            omega
          · rw [if_neg hx]
            obtain ⟨added, ha, hb, hnd⟩ :=
              processNewUrls_spec j.st (env.pageLinks u0) hn
            refine ⟨by rw [ha]; exact hnd, ?_⟩
            intro u
            have hthis := hc u
            rw [hq] at hthis
            rw [ha, hb]
            simp only [countPageReq_append, countPageReq_cons, countPageReq_nil,
              countPageReq_map_page, countStr_append] at hthis ⊢
            omega
      | Req.sitemap u0 =>
          simp only [JobInv, stepJob, hq]
          unfold parseSitemapCb
          match hr : env.sitemapResp u0 with
          | none =>
              simp only [hr]
              refine ⟨hn, ?_⟩
              intro u
              have hthis := hc u
              rw [hq] at hthis
              simp only [countPageReq_append, countPageReq_cons, countPageReq_nil]
                at hthis ⊢
              omega
          | some d =>
              simp only [hr]
              obtain ⟨added, ha, hb, hnd⟩ := processNewUrls_spec j.st d.urlLocs hn
              refine ⟨by rw [ha]; exact hnd, ?_⟩
              intro u
              have hthis := hc u
              rw [hq] at hthis
              rw [ha, hb]
              simp only [countPageReq_append, countPageReq_cons, countPageReq_nil,
                countPageReq_map_page, countPageReq_map_sitemap, countStr_append]
                at hthis ⊢
              omega

theorem runJob_inv (env : CrawlEnv) (n : Nat) : JobInv env (runJob env n) := by
  induction n with
  | zero =>
      constructor
      · simp [runJob, initJob]
      · intro u
        simp [runJob, initJob, countPageReq, countStr]
  | succ n ih => exact stepJob_inv env _ ih

theorem countStr_cons (u a : Str) (l : List Str) :
    countStr u (a :: l) = (if a = u then 1 else 0) + countStr u l := by
  by_cases h : a = u <;> simp [countStr, List.countP_cons, h, Nat.add_comm]

theorem countStr_le_one_of_nodup (u : Str) (l : List Str) (h : l.Nodup) :
    countStr u l ≤ 1 := by
  induction l with
  | nil => simp [countStr]
  | cons a rest ih =>
      simp only [List.nodup_cons] at h
      have h1 : countStr u rest ≤ 1 := ih h.2
      rw [countStr_cons]
      by_cases hau : a = u
      · subst hau
        have h0 : countStr a rest = 0 := by
          simp only [countStr, List.countP_eq_zero, decide_eq_true_eq]
          intro x hx hxa
          exact h.1 (hxa ▸ hx)
        simp only [eq_self_iff_true, if_true]
        omega
      · simp only [if_neg hau]
        omega

/-! ### Concrete crawl environments used as test inputs -/

/-- A job on a site whose front page links back to the seed URL itself; all
three fallback sitemap candidates return non-200. -/
def envC1 : CrawlEnv :=
  { seedUrl := ("https://a.com").data,
    sitemapUrls := [("https://a.com/sitemap.xml").data,
                    ("https://a.com/sitemap_index.xml").data,
                    ("https://a.com/sitemaps.xml").data],
    excludedUrls := [],
    pathExclusions := [],
    pageLinks := fun u => if u = ("https://a.com").data then [("https://a.com").data] else [],
    sitemapResp := fun _ => none }

/-- The sitemap URL of the cyclic-sitemap environment. -/
def smUrlC2 : Str := ("https://a.com/sitemap.xml").data

/-- A job whose single sitemap document is a sitemap index that lists itself
as a nested sitemap and one leaf page URL. -/
def envC2 : CrawlEnv :=
  { seedUrl := ("https://a.com").data,
    sitemapUrls := [smUrlC2],
    excludedUrls := [],
    pathExclusions := [],
    pageLinks := fun _ => [],
    sitemapResp := fun u =>
      if u = smUrlC2 then
        some { sitemapLocs := [smUrlC2], urlLocs := [("https://a.com/p1").data] }
      else none }

/-- The frontier state reached by `envC2` once the loop closes. -/
def stC2 : CrawlState :=
  { visited := [("https://a.com/p1").data], excludedUrls := [], pathExclusions := [] }

/-- A job on a site whose front page links back to the seed URL itself, with
a single non-200 sitemap candidate. -/
def envC10 : CrawlEnv :=
  { seedUrl := ("https://b.com").data,
    sitemapUrls := [("https://b.com/sitemap.xml").data],
    excludedUrls := [],
    pathExclusions := [],
    pageLinks := fun u => if u = ("https://b.com").data then [("https://b.com").data] else [],
    sitemapResp := fun _ => none }

theorem envC2_loop (j : JobState) (hq : j.queue = [Req.sitemap smUrlC2])
    (hs : j.st = stC2) :
    (stepJob envC2 j).queue = [Req.sitemap smUrlC2] ∧ (stepJob envC2 j).st = stC2 := by
  obtain ⟨st0, q0, f0⟩ := j
  simp only at hq hs
  subst hq hs
  constructor
  · show [] ++ (parseSitemapCb stC2 (envC2.sitemapResp smUrlC2)).2 = [Req.sitemap smUrlC2]
    decide
  · show (parseSitemapCb stC2 (envC2.sitemapResp smUrlC2)).1 = stC2
    decide

theorem envC2_tail (n : Nat) :
    (runJob envC2 (4 + n)).queue = [Req.sitemap smUrlC2] ∧
    (runJob envC2 (4 + n)).st = stC2 := by
  induction n with
  | zero => constructor <;> decide
  | succ n ih =>
      have hstep := envC2_loop (runJob envC2 (4 + n)) ih.1 ih.2
      have hrw : runJob envC2 (4 + (n + 1)) = stepJob envC2 (runJob envC2 (4 + n)) := rfl
      rw [hrw]
      exact hstep

/-! ### Claims about the frontier -/

/-- C1 counterexample: in the self-linking job `envC1`, the seed URL is
inserted into `visited_urls` during the job (when the front page's self-link
is discovered), yet the spider yields a `parse` request for it twice - once
from `start_requests` (which performs no insertion) and once from the guarded
discovery loop.  So a URL inserted into `visited` during the job is fetched
twice, refuting the claim as stated. -/
theorem claim1_counterexample :
    ("https://a.com").data ∈ (runJob envC1 5).st.visited ∧
    countPageReq (("https://a.com").data) ((runJob envC1 5).fetched) = 2 ∧
    (runJob envC1 5).queue = [] := by
  refine ⟨?_, ?_, ?_⟩ <;> decide

/-- C1 (amended): the guarded discovery loop of `parse`/`_parse_sitemap`
really does make insertion into `visited` and enqueueing one atomic step, so
each URL is inserted at most once per job and at most one `parse` request per
URL is ever created beyond those of the startup queue.  A URL is therefore
fetched at most once through the guarded path; only requests issued outside
it (the seed request of `start_requests`, nested-sitemap requests) can add
further fetches of the same URL, as `claim1_counterexample` exhibits. -/
theorem claim1_guarded_at_most_once (env : CrawlEnv) (n : Nat) (u : Str) :
    countStr u (runJob env n).st.visited ≤ 1 ∧
    countPageReq u ((runJob env n).fetched) ≤
      countPageReq u (initJob env).queue + countStr u (runJob env n).st.visited := by
  obtain ⟨hnd, hcount⟩ := runJob_inv env n
  refine ⟨countStr_le_one_of_nodup u _ hnd, ?_⟩
  have h2 := hcount u
  rw [countPageReq_append] at h2
  omega

/-- C2 counterexample: in `envC2` the single sitemap document is a sitemap
index listing itself.  After three engine steps the same sitemap URL has been
fetched twice and was never inserted into `visited_urls` - nested-sitemap
recursion is not guarded by the visited set at all, refuting the claim as
stated. -/
theorem claim2_counterexample :
    (runJob envC2 3).fetched =
      [Req.sitemap smUrlC2, Req.page (("https://a.com").data), Req.sitemap smUrlC2] ∧
    smUrlC2 ∉ (runJob envC2 3).st.visited := by
  refine ⟨?_, ?_⟩ <;> decide

/-- C2 (amended): sitemap leaf URLs are deduplicated through the visited set
(each leaf is page-fetched at most once), but `<sitemap><loc>` recursion is
issued with no visited check, so on a self-cycling sitemap index the spider
itself never drains its queue: termination and nested-sitemap deduplication
rest on the scrapy engine's request-fingerprint filter, which is outside the
spider's code, not on the visited set. -/
theorem claim2_cycle_not_guarded :
    (∀ n, (runJob envC2 n).queue ≠ []) ∧
    (∀ n, countPageReq (("https://a.com/p1").data) ((runJob envC2 n).fetched) ≤ 1) := by
  constructor
  · intro n
    rcases Nat.lt_or_ge n 4 with h | h
    · interval_cases n <;> decide
    · obtain ⟨k, rfl⟩ : ∃ k, n = 4 + k := ⟨n - 4, by omega⟩
      rw [(envC2_tail k).1]
      simp
  · intro n
    obtain ⟨hnd, hcount⟩ := runJob_inv envC2 n
    have h2 := hcount (("https://a.com/p1").data)
    rw [countPageReq_append] at h2
    have h3 := countStr_le_one_of_nodup (("https://a.com/p1").data) _ hnd
    have h4 : countPageReq (("https://a.com/p1").data) (initJob envC2).queue = 0 := by
      decide
    omega

/-- Helper for C6: appending a trailing slash does not change the only
normalization the spiders apply. -/
theorem rstripSlash_append_slash (u : Str) :
    rstripSlash (u ++ [ '/' ]) = rstripSlash u := by
  simp [rstripSlash, List.reverse_append]

/-- C6 counterexample: two URLs that differ only in casing are NOT mapped to
the same canonical URL - the only normalization is `rstrip('/')`, which does
no case folding - so both are inserted into `visited` and both are enqueued,
two frontier entries and two fetches.  This refutes the casing half of the
claim. -/
theorem claim6_counterexample :
    rstripSlash (("https://a.com/About").data) ≠
      rstripSlash (("https://a.com/about").data) ∧
    (processNewUrls { visited := [], excludedUrls := [], pathExclusions := [] }
        [("https://a.com/About").data, ("https://a.com/about").data]).1.visited.length
      = 2 ∧
    (processNewUrls { visited := [], excludedUrls := [], pathExclusions := [] }
        [("https://a.com/About").data, ("https://a.com/about").data]).2.length = 2 := by
  refine ⟨?_, ?_, ?_⟩ <;> decide

/-- C6 (amended): URLs that differ only in the presence of a trailing slash
normalize identically and are treated as the same frontier entry by the
guarded discovery loop and by both exclusion checks; URLs that differ only in
casing are distinct entries (see `claim6_counterexample`). -/
theorem claim6_trailing_slash_only (s : CrawlState) (u : Str) (rest : List Str) :
    processNewUrls s ((u ++ [ '/' ]) :: rest) = processNewUrls s (u :: rest) ∧
    isUrlExcluded s (u ++ [ '/' ]) = isUrlExcluded s u ∧
    isPathExclusion s (u ++ [ '/' ]) = isPathExclusion s u := by
  refine ⟨?_, ?_, ?_⟩
  · simp only [processNewUrls, rstripSlash_append_slash]
  · simp [isUrlExcluded, rstripSlash_append_slash]
  · simp [isPathExclusion, rstripSlash_append_slash]

/-- C10: in sitemap mode `start_requests` issues the seed request without any
insertion into `visited_urls` (the set starts empty), so when a crawled page
links back to the seed the guarded loop's not-in-visited check passes and the
seed is enqueued - and fetched - a second time. -/
theorem claim10_seed_not_inserted :
    (initJob envC10).st.visited = [] ∧
    countPageReq (("https://b.com").data) ((runJob envC10 3).fetched) = 2 ∧
    (runJob envC10 3).queue = [] := by
  refine ⟨?_, ?_, ?_⟩ <;> decide

/-! ## Parsed HTML documents (BeautifulSoup trees)

A first-order rose-tree encoding: a `Forest` is a sibling list whose nodes
are text nodes (NavigableStrings) or element nodes (Tags).  `nid` models
Python object identity of a Tag; the cleaning code of `clean_content` keeps a
stale loop variable pointing at a Tag, so identity is observable.  Attributes
are association lists; `class` is stored as its literal attribute string and
tokenized on whitespace where BeautifulSoup treats it as multi-valued. -/

inductive Forest where
  | nil : Forest
  | text (s : Str) (rest : Forest) : Forest
  | elem (nid : Nat) (tag : Str) (attrs : List (Str × Str)) (children rest : Forest) : Forest
  deriving DecidableEq

/-- Sibling-list concatenation. -/
def fappend : Forest → Forest → Forest
  | Forest.nil, g => g
  | Forest.text s r, g => Forest.text s (fappend r g)
  | Forest.elem i t a cs r, g => Forest.elem i t a cs (fappend r g)

/-- Attribute lookup, `tag.get(k)` / `tag[k]`. -/
def getAttr (attrs : List (Str × Str)) (k : Str) : Option Str :=
  (attrs.find? (fun kv => kv.1 = k)).map (fun kv => kv.2)

/-- The class list of a tag: BeautifulSoup splits the `class` attribute on
whitespace into a multi-valued attribute. -/
def classTokens (attrs : List (Str × Str)) : List Str :=
  match getAttr attrs (("class").data) with
  | none => []
  | some v => pyWords v

/-- Membership of one CSS class in the class list, as used by
`find(..., class_=value)`. -/
def hasClassToken (attrs : List (Str × Str)) (c : Str) : Bool :=
  decide (c ∈ classTokens attrs)

/-- Remove every element (with its whole subtree) whose tag name is in the
list; used for the two tag-decomposition loops of `clean_content`. -/
def removeTags (bad : List Str) : Forest → Forest
  | Forest.nil => Forest.nil
  | Forest.text s r => Forest.text s (removeTags bad r)
  | Forest.elem i t a cs r =>
      if t ∈ bad then removeTags bad r
      else Forest.elem i t a (removeTags bad cs) (removeTags bad r)

/-- First loop of `clean_content`: structural/non-content tags. -/
def structuralTags : List Str :=
  [("aside").data, ("nav").data, ("footer").data, ("form").data, ("iframe").data,
   ("script").data, ("svg").data, ("button").data, ("select").data, ("input").data,
   ("label").data, ("source").data, ("audio").data, ("video").data, ("img").data]

/-- Second loop of `clean_content`: framework-specific component tags. -/
def frameworkTags : List Str :=
  [("devsite-toc").data, ("devsite-feedback").data, ("devsite-nav").data,
   ("devsite-footer").data, ("devsite-banner").data, ("devsite-section-nav").data,
   ("devsite-book-nav").data, ("google-codelab-step").data, ("mdn-sidebar").data,
   ("mdn-toc").data, ("api-index").data, ("amp-sidebar").data, ("amp-accordion").data]

/-- Heading tags h1-h4 (header pass). -/
def headingTags14 : List Str :=
  [("h1").data, ("h2").data, ("h3").data, ("h4").data]

/-- Heading tags h1-h5 (heading-div pass). -/
def headingTags15 : List Str :=
  [("h1").data, ("h2").data, ("h3").data, ("h4").data, ("h5").data]

/-- Inside a `<header>` kept by the header pass: keep only direct children
that are h1-h4 elements (text nodes and other elements are extracted). -/
def keepHeadingChildren : Forest → Forest
  | Forest.nil => Forest.nil
  | Forest.text _ r => keepHeadingChildren r
  | Forest.elem i t a cs r =>
      if t ∈ headingTags14 then Forest.elem i t a cs (keepHeadingChildren r)
      else keepHeadingChildren r

/-- Header pass of `clean_content`: a `<header>` with a `<main>`/`<article>`
ancestor keeps only h1-h4 children and survives only if one remains; every
other `<header>` is decomposed. -/
def headerPass (insideMA : Bool) : Forest → Forest
  | Forest.nil => Forest.nil
  | Forest.text s r => Forest.text s (headerPass insideMA r)
  | Forest.elem i t a cs r =>
      if t = ("header").data then
        if insideMA then
          match keepHeadingChildren (headerPass insideMA cs) with
          | Forest.nil => headerPass insideMA r
          | kept => Forest.elem i t a kept (headerPass insideMA r)
        else headerPass insideMA r
      else
        Forest.elem i t a
          (headerPass (insideMA || t = ("main").data || t = ("article").data) cs)
          (headerPass insideMA r)

/-- Pre-order search for the first element satisfying the predicate
(`soup.find`). -/
def findElemQ (p : Nat → Str → List (Str × Str) → Forest → Bool) :
    Forest → Option (Nat × Str × List (Str × Str) × Forest)
  | Forest.nil => none
  | Forest.text _ r => findElemQ p r
  | Forest.elem i t a cs r =>
      if p i t a cs then some (i, t, a, cs)
      else
        match findElemQ p cs with
        | some q => some q
        | none => findElemQ p r

/-- `soup.find(tagname)`. -/
def findTagQ (t : Str) (f : Forest) : Option (Nat × Str × List (Str × Str) × Forest) :=
  findElemQ (fun _ tg _ _ => tg = t) f

/-- The main-content-root selection chain of `clean_content`:
`main`, else `article`, else a `div` with class `content`, else a `div` with
id `content`, else `body`.  `none` means all five lookups returned `None`
(the Python code then dereferences `None`). -/
def selectMain (f : Forest) : Option (Nat × Str × List (Str × Str) × Forest) :=
  match findTagQ (("main").data) f with
  | some q => some q
  | none =>
    match findTagQ (("article").data) f with
    | some q => some q
    | none =>
      match findElemQ (fun _ tg a _ =>
          tg = ("div").data && hasClassToken a (("content").data)) f with
      | some q => some q
      | none =>
        match findElemQ (fun _ tg a _ =>
            tg = ("div").data && getAttr a (("id").data) = some (("content").data)) f with
        | some q => some q
        | none => findTagQ (("body").data) f

/-- Heading-div pass: inside any h1-h5 of the content root, decompose every
`<div>` descendant. -/
def stripDivsInHeadings (inHeading : Bool) : Forest → Forest
  | Forest.nil => Forest.nil
  | Forest.text s r => Forest.text s (stripDivsInHeadings inHeading r)
  | Forest.elem i t a cs r =>
      if inHeading && t = ("div").data then stripDivsInHeadings inHeading r
      else
        Forest.elem i t a
          (stripDivsInHeadings (inHeading || decide (t ∈ headingTags15)) cs)
          (stripDivsInHeadings inHeading r)

/-- Picture pass: each `<picture>` is replaced by its first `<img>` descendant
(moved out via `insert_after`) if one exists, and decomposed.  (After the
first decomposition loop no `<img>` survives, so in context the branch that
rescues the image is dead; it is modelled anyway.) -/
def picturePass : Forest → Forest
  | Forest.nil => Forest.nil
  | Forest.text s r => Forest.text s (picturePass r)
  | Forest.elem i t a cs r =>
      if t = ("picture").data then
        match findTagQ (("img").data) cs with
        | some q => Forest.elem q.1 q.2.1 q.2.2.1 q.2.2.2 (picturePass r)
        | none => picturePass r
      else Forest.elem i t a (picturePass cs) (picturePass r)

/-- Generic div-removal pass: decompose each `<div>` whose attributes and
(current) children satisfy the predicate, recursing into kept elements. -/
def divRemovePass (p : List (Str × Str) → Forest → Bool) : Forest → Forest
  | Forest.nil => Forest.nil
  | Forest.text s r => Forest.text s (divRemovePass p r)
  | Forest.elem i t a cs r =>
      if t = ("div").data && p a cs then divRemovePass p r
      else Forest.elem i t a (divRemovePass p cs) (divRemovePass p r)

/-- Marker of the Svelte framework pass: a `data-svelte-h` attribute present. -/
def svelteMatch (attrs : List (Str × Str)) : Bool :=
  (getAttr attrs (("data-svelte-h").data)).isSome

/-- Is there a direct child that survives the `div.contents` filtering
(an element, or a text node with non-whitespace content)? -/
def existsNonWsChild : Forest → Bool
  | Forest.nil => false
  | Forest.text s r => !(pyStrip s).isEmpty || existsNonWsChild r
  | Forest.elem _ _ _ _ _ => true

/-- Do all filtered direct children have name `a`?  A NavigableString has
name `None` in BeautifulSoup, so a non-whitespace text child makes this
false; whitespace-only text children were already filtered out. -/
def allKidsAnchors : Forest → Bool
  | Forest.nil => true
  | Forest.text s r => (pyStrip s).isEmpty && allKidsAnchors r
  | Forest.elem _ t _ _ r => t = ("a").data && allKidsAnchors r

/-- Wrapper-div condition of `clean_content` (lines 142-145): the filtered
contents are non-empty and all of them are anchor tags. -/
def onlyAnchorsCond (cs : Forest) : Bool :=
  existsNonWsChild cs && allKidsAnchors cs

/-- Marker ids of the id-based div removal. -/
def idMarkers : List Str :=
  [("comment").data, ("comments").data, ("sidebar").data, ("right-sidebar").data,
   ("md-sidebar").data, ("breadcrumbs").data, ("breadcrumb").data, ("reviews").data,
   ("feedback").data]

/-- Marker roles of the role-based div removal. -/
def divRoleMarkers : List Str :=
  [("nav").data, ("navigation").data, ("sidebar").data, ("breadcrumb").data,
   ("breadcrumbs").data, ("header").data, ("heading").data, ("menubar").data,
   ("menu").data]

/-- Marker labels of the aria-label-based div removal. -/
def divAriaMarkers : List Str :=
  [("nav").data, ("navbar").data, ("navigation").data, ("sidebar").data,
   ("breadcrumb").data, ("breadcrumbs").data, ("menubar").data, ("menu").data]

/-- Marker classes of the class-based div removal. -/
def divClassMarkers : List Str :=
  [("nav").data, ("navbar").data, ("navigation").data, ("sidebar").data,
   ("breadcrumb").data, ("breadcrumbs").data, ("menubar").data, ("menu").data]

/-- `id=lambda x: x and x.lower() in idMarkers`. -/
def idMatch (attrs : List (Str × Str)) : Bool :=
  match getAttr attrs (("id").data) with
  | none => false
  | some v => !v.isEmpty && decide (lowerStr v ∈ idMarkers)

/-- `role=lambda x: x and x.lower() in divRoleMarkers`. -/
def roleMatch (attrs : List (Str × Str)) : Bool :=
  match getAttr attrs (("role").data) with
  | none => false
  | some v => !v.isEmpty && decide (lowerStr v ∈ divRoleMarkers)

/-- `aria-label=lambda x: x and x.lower() in divAriaMarkers`. -/
def ariaMatch (attrs : List (Str × Str)) : Bool :=
  match getAttr attrs (("aria-label").data) with
  | none => false
  | some v => !v.isEmpty && decide (lowerStr v ∈ divAriaMarkers)

/-- `class=lambda x: x and x.lower() in divClassMarkers`: the callable is
applied to each CSS class of the (multi-valued) class attribute. -/
def classMatch (attrs : List (Str × Str)) : Bool :=
  (classTokens attrs).any (fun tok => !tok.isEmpty && decide (lowerStr tok ∈ divClassMarkers))

/-- The object identity of the LAST `<div>` in pre-order satisfying the
predicate: the value left in the Python loop variable `div` by a
`for div in main.find_all('div', ...)` loop (the snapshot is taken before the
loop mutates the tree). -/
def lastDivMatching (p : List (Str × Str) → Forest → Bool) : Forest → Option Nat
  | Forest.nil => none
  | Forest.text _ r => lastDivMatching p r
  | Forest.elem i t a cs r =>
      (lastDivMatching p r).orElse (fun _ =>
        (lastDivMatching p cs).orElse (fun _ =>
          if t = ("div").data && p a cs then some i else none))

/-- The identity of the last `<div>` bound by the heading-div pass
(the inner `for div in tag.find_all('div')` loop over h1-h5 tags). -/
def lastDivInHeadings (inHeading : Bool) : Forest → Option Nat
  | Forest.nil => none
  | Forest.text _ r => lastDivInHeadings inHeading r
  | Forest.elem i t _ cs r =>
      (lastDivInHeadings inHeading r).orElse (fun _ =>
        (lastDivInHeadings (inHeading || decide (t ∈ headingTags15)) cs).orElse (fun _ =>
          if inHeading && t = ("div").data then some i else none))

/-- Marker roles of the ul role loop (line 159). -/
def ulRoleMarkers : List Str :=
  [("nav").data, ("navigation").data, ("sidebar").data, ("breadcrumb").data,
   ("breadcrumbs").data, ("header").data, ("heading").data, ("menubar").data,
   ("menu").data]

/-- Marker labels of the ul aria-label loop (line 162). -/
def ulAriaMarkers : List Str :=
  [("nav").data, ("navigation").data, ("sidebar").data, ("breadcrumb").data,
   ("breadcrumbs").data, ("menubar").data, ("menu").data]

/-- Match of the ul role loop. -/
def ulRoleMatch (attrs : List (Str × Str)) : Bool :=
  match getAttr attrs (("role").data) with
  | none => false
  | some v => !v.isEmpty && decide (lowerStr v ∈ ulRoleMarkers)

/-- Match of the ul aria-label loop. -/
def ulAriaMatch (attrs : List (Str × Str)) : Bool :=
  match getAttr attrs (("aria-label").data) with
  | none => false
  | some v => !v.isEmpty && decide (lowerStr v ∈ ulAriaMarkers)

/-- Is there a `<ul>` element whose attributes satisfy the predicate? -/
def existsUl (p : List (Str × Str) → Bool) : Forest → Bool
  | Forest.nil => false
  | Forest.text _ r => existsUl p r
  | Forest.elem _ t a cs r =>
      (t = ("ul").data && p a) || existsUl p cs || existsUl p r

/-- Remove the element with the given object identity (a decomposition of a
stale Tag reference; a no-op when the Tag is no longer attached). -/
def removeById (target : Nat) : Forest → Forest
  | Forest.nil => Forest.nil
  | Forest.text s r => Forest.text s (removeById target r)
  | Forest.elem i t a cs r =>
      if i = target then removeById target r
      else Forest.elem i t a (removeById target cs) (removeById target r)

/-- `a_tag.unwrap()` over every anchor: replace the anchor by its children. -/
def unwrapAnchors : Forest → Forest
  | Forest.nil => Forest.nil
  | Forest.text s r => Forest.text s (unwrapAnchors r)
  | Forest.elem i t a cs r =>
      if t = ("a").data then fappend (unwrapAnchors cs) (unwrapAnchors r)
      else Forest.elem i t a (unwrapAnchors cs) (unwrapAnchors r)

/-- Is there an element with this tag name? -/
def existsTag (t : Str) : Forest → Bool
  | Forest.nil => false
  | Forest.text _ r => existsTag t r
  | Forest.elem _ tg _ cs r => tg = t || existsTag t cs || existsTag t r

/-- Anchor-wrapping-an-image pass: decompose every `<a>` containing an
`<img>` descendant (dead in context: anchors were all unwrapped just before,
and images decomposed in the first pass; modelled anyway). -/
def anchorImgPass : Forest → Forest
  | Forest.nil => Forest.nil
  | Forest.text s r => Forest.text s (anchorImgPass r)
  | Forest.elem i t a cs r =>
      if t = ("a").data && existsTag (("img").data) cs then anchorImgPass r
      else Forest.elem i t a (anchorImgPass cs) (anchorImgPass r)

/-- The fixed social-platform list of the li pass. -/
def socialMarkers : List Str :=
  [("instagram").data, ("facebook").data, ("twitter").data, ("whatsapp").data,
   ("snapchat").data]

/-- `' '.join(filter(None, [*li.get('class', []), li.get('id') or ''])).lower()`. -/
def classIdJoined (attrs : List (Str × Str)) : Str :=
  let parts := classTokens attrs ++ [((getAttr attrs (("id").data)).getD [])]
  lowerStr (List.intercalate ([ ' ' ]) (parts.filter (fun p => !p.isEmpty)))

/-- Social li pass: decompose each `<li>` whose class/id string contains a
social-platform name as a substring. -/
def socialLiPass : Forest → Forest
  | Forest.nil => Forest.nil
  | Forest.text s r => Forest.text s (socialLiPass r)
  | Forest.elem i t a cs r =>
      if t = ("li").data && socialMarkers.any (fun m => containsSub m (classIdJoined a)) then
        socialLiPass r
      else Forest.elem i t a (socialLiPass cs) (socialLiPass r)

/-- Table-of-contents pass: decompose each `<ul>` with class
`table-of-contents`. -/
def tocPass : Forest → Forest
  | Forest.nil => Forest.nil
  | Forest.text s r => Forest.text s (tocPass r)
  | Forest.elem i t a cs r =>
      if t = ("ul").data && hasClassToken a (("table-of-contents").data) then tocPass r
      else Forest.elem i t a (tocPass cs) (tocPass r)

/-- The names (`None` for text) of the filtered direct children, as the span
pass computes them. -/
def nonWsKidNames : Forest → List (Option Str)
  | Forest.nil => []
  | Forest.text s r =>
      if (pyStrip s).isEmpty then nonWsKidNames r else none :: nonWsKidNames r
  | Forest.elem _ t _ _ r => some t :: nonWsKidNames r

/-- Span pass condition: exactly one filtered child, and it is an `<img>` or
`<a>` element. -/
def spanCond (cs : Forest) : Bool :=
  match nonWsKidNames cs with
  | [some t] => t = ("img").data || t = ("a").data
  | _ => false

/-- Span pass: decompose each `<span>` whose sole filtered child is an image
or an anchor. -/
def spanPass : Forest → Forest
  | Forest.nil => Forest.nil
  | Forest.text s r => Forest.text s (spanPass r)
  | Forest.elem i t a cs r =>
      if t = ("span").data && spanCond cs then spanPass r
      else Forest.elem i t a (spanPass cs) (spanPass r)

/-- Final pass: delete the `style` attribute of every element below the root
(`main.find_all(True)` yields descendants only). -/
def stripStyles : Forest → Forest
  | Forest.nil => Forest.nil
  | Forest.text s r => Forest.text s (stripStyles r)
  | Forest.elem i t a cs r =>
      Forest.elem i t (a.filter (fun kv => kv.1 ≠ ("style").data))
        (stripStyles cs) (stripStyles r)

/-- Python exceptions that `clean_content`/`parse_page` can raise. -/
inductive PyExn where
  | attributeError
  | nameError
  | indexError
  deriving DecidableEq

deriving instance DecidableEq for Except

/-- `SiteMapScraper.clean_content`: the full cleaning pipeline, in source
order.  The value threaded through `divVar` mirrors the Python loop variable
`div`: each `for div in ...` loop leaves the last Tag it iterated over bound,
and the two `<ul>` loops at lines 159-163 call `div.decompose()` on that
stale variable instead of `ul.decompose()`.  If no div loop ever ran, those
calls raise `NameError`; otherwise they re-decompose (or belatedly decompose)
the stale div and leave the matched `<ul>` untouched.  A missing content root
(`main`/`article`/content-div/`body` all absent) makes the Python code call
`None.find_all`, an `AttributeError`. -/
def cleanContent (soup : Forest) : Except PyExn (Nat × Str × List (Str × Str) × Forest) :=
  let d1 := removeTags structuralTags soup
  let d2 := removeTags frameworkTags d1
  let d3 := headerPass false d2
  match selectMain d3 with
  | none => Except.error PyExn.attributeError
  | some q =>
      let cs := q.2.2.2
      let v1 := lastDivInHeadings false cs
      let c1 := stripDivsInHeadings false cs
      let c2 := picturePass c1
      let v2 := (lastDivMatching (fun a _ => svelteMatch a) c2).orElse (fun _ => v1)
      let c3 := divRemovePass (fun a _ => svelteMatch a) c2
      let v3 := (lastDivMatching (fun _ _ => true) c3).orElse (fun _ => v2)
      let c4 := divRemovePass (fun _ kids => onlyAnchorsCond kids) c3
      let v4 := (lastDivMatching (fun a _ => idMatch a) c4).orElse (fun _ => v3)
      let c5 := divRemovePass (fun a _ => idMatch a) c4
      let v5 := (lastDivMatching (fun a _ => roleMatch a) c5).orElse (fun _ => v4)
      let c6 := divRemovePass (fun a _ => roleMatch a) c5
      let v6 := (lastDivMatching (fun a _ => ariaMatch a) c6).orElse (fun _ => v5)
      let c7 := divRemovePass (fun a _ => ariaMatch a) c6
      let v7 := (lastDivMatching (fun a _ => classMatch a) c7).orElse (fun _ => v6)
      let c8 := divRemovePass (fun a _ => classMatch a) c7
      match (if existsUl ulRoleMatch c8 then
               match v7 with
               | none => Except.error PyExn.nameError
               | some stale => Except.ok (removeById stale c8)
             else Except.ok c8 : Except PyExn Forest) with
      | Except.error e => Except.error e
      | Except.ok c9 =>
          match (if existsUl ulAriaMatch c9 then
                   match v7 with
                   | none => Except.error PyExn.nameError
                   | some stale => Except.ok (removeById stale c9)
                 else Except.ok c9 : Except PyExn Forest) with
          | Except.error e => Except.error e
          | Except.ok c10 =>
              let c11 := unwrapAnchors c10
              let c12 := anchorImgPass c11
              let c13 := socialLiPass c12
              let c14 := tocPass c13
              let c15 := spanPass c14
              let c16 := stripStyles c15
              Except.ok (q.1, q.2.1, q.2.2.1, c16)

/-! ### Text extraction and the sitemap-mode page record -/

/-- All text nodes of a forest, in document order (the strings that
`get_text` joins). -/
def collectTexts : Forest → List Str
  | Forest.nil => []
  | Forest.text s r => s :: collectTexts r
  | Forest.elem _ _ _ cs r => collectTexts cs ++ collectTexts r

/-- Concatenation of a list of strings. -/
def concatAll : List Str → Str
  | [] => []
  | s :: r => s ++ concatAll r

/-- `tag.get_text(separator='\n')`. -/
def getTextSepNL (f : Forest) : Str :=
  List.intercalate ([ '\n' ]) (collectTexts f)

/-- `soup.get_text()` (empty separator). -/
def getTextPlain (f : Forest) : Str :=
  concatAll (collectTexts f)

/-- `tag.get_text(strip=True)`: strip each string, drop the empty ones,
join. -/
def getTextStripJoin (f : Forest) : Str :=
  concatAll (((collectTexts f).map pyStrip).filter (fun s => !s.isEmpty))

/-- Attribute rendering for `str(tag)`. -/
def renderAttrs : List (Str × Str) → Str
  | [] => []
  | kv :: rest => ' ' :: (kv.1 ++ ('=' :: '"' :: (kv.2 ++ ('"' :: renderAttrs rest))))

/-- `str(tag)`: serialize the tree (the `nid` identity is a model artifact
and is not rendered). -/
def renderForest : Forest → Str
  | Forest.nil => []
  | Forest.text s r => s ++ renderForest r
  | Forest.elem _ t a cs r =>
      ('<' :: (t ++ renderAttrs a ++ [ '>' ])) ++ renderForest cs ++
        ('<' :: '/' :: (t ++ [ '>' ])) ++ renderForest r

/-- After `re.sub` matches a newline run, scanning resumes after the last
newline of the whitespace run. -/
def dropThroughLastNL (s : Str) : Str :=
  let run := s.takeWhile Char.isWhitespace
  ((run.reverse.takeWhile (fun c => c ≠ '\n')).reverse) ++ s.drop run.length

/-- Fuel-driven scanner implementing `re.sub(r'\n\s*\n', '\n', text)`:
a greedy match starts at a newline whose following whitespace run contains
another newline, covers the run up to its last newline, and is replaced by a
single newline. -/
def collapseNLGo : Nat → Str → Str
  | _, [] => []
  | 0, s => s
  | fuel + 1, c :: rest =>
      if c = '\n' ∧ '\n' ∈ rest.takeWhile Char.isWhitespace then
        '\n' :: collapseNLGo fuel (dropThroughLastNL rest)
      else c :: collapseNLGo fuel rest

/-- `re.sub(r'\n\s*\n', '\n', text)` as applied to the extracted text. -/
def collapseNL (s : Str) : Str := collapseNLGo s.length s

/-- All elements with a given tag name, pre-order (`//tag` axis). -/
def collectElemsQ (t : Str) : Forest → List (Nat × Str × List (Str × Str) × Forest)
  | Forest.nil => []
  | Forest.text _ r => collectElemsQ t r
  | Forest.elem i tg a cs r =>
      (if tg = t then [(i, tg, a, cs)] else []) ++ collectElemsQ t cs ++ collectElemsQ t r

/-- The direct text children of a node's child forest (`text()` axis). -/
def directTextChildren : Forest → List Str
  | Forest.nil => []
  | Forest.text s r => s :: directTextChildren r
  | Forest.elem _ _ _ _ r => directTextChildren r

/-- Concatenation of lists. -/
def joinAll {α : Type} : List (List α) → List α
  | [] => []
  | l :: r => l ++ joinAll r

/-- `response.xpath('//t/text()').get('')`: the first text child over all `t`
elements in document order, defaulting to the empty string. -/
def xpathFirstText (t : Str) (doc : Forest) : Str :=
  (joinAll ((collectElemsQ t doc).map (fun q => directTextChildren q.2.2.2))).headD []

/-- `response.xpath('//h1[1]/text()').get('')`: first text child of the
document's first `h1`. -/
def xpathFirstH1Text (doc : Forest) : Str :=
  match (collectElemsQ (("h1").data) doc).head? with
  | none => []
  | some q => (directTextChildren q.2.2.2).headD []

/-- `response.xpath("//meta[@name=N]/@content").get()`. -/
def xpathMetaContent (n : Str) (doc : Forest) : Option Str :=
  (((collectElemsQ (("meta").data) doc).filter
      (fun q => getAttr q.2.2.1 (("name").data) = some n)).filterMap
    (fun q => getAttr q.2.2.1 (("content").data))).head?

/-- The page record of sitemap mode (`SiteMapScraper.parse` lines 229-238). -/
structure PageData where
  url : Str
  title : Str
  description : Str
  h1 : Str
  contentHtml : Str
  contentText : Str
  statusCode : Nat
  wordCount : Nat
  deriving DecidableEq

/-- Record-building part of `SiteMapScraper.parse`: skip excluded pages
(`ok none`), run `clean_content` (whose exceptions propagate - there is no
try/except in `parse`), then build the page record.  A BeautifulSoup Tag is
always truthy, so the `if cleaned_content else ''` guards always take the
content branch when `clean_content` returns. -/
def sitemapParsePage (s : CrawlState) (doc : Forest) (respUrl : Str) (status : Nat) :
    Except PyExn (Option PageData) :=
  let currentUrl := rstripSlash respUrl
  if isUrlExcluded s currentUrl || isPathExclusion s currentUrl then Except.ok none
  else
    match cleanContent doc with
    | Except.error e => Except.error e
    | Except.ok q =>
        let contentHtml := renderForest (Forest.elem q.1 q.2.1 q.2.2.1 q.2.2.2 Forest.nil)
        let contentText := collapseNL (pyStrip (getTextSepNL q.2.2.2))
        Except.ok (some
          { url := currentUrl,
            title := pyStrip (xpathFirstText (("title").data) doc),
            description := pyStrip ((xpathMetaContent (("description").data) doc).getD []),
            h1 := pyStrip (xpathFirstH1Text doc),
            contentHtml := contentHtml,
            contentText := contentText,
            statusCode := status,
            wordCount := if !contentText.isEmpty then (pyWords contentText).length else 0 })

/-- A document that html.parser leaves without a `<body>` (it inserts no
missing structure): a bare paragraph. -/
def docC3 : Forest :=
  Forest.elem 0 (("p").data) [] (Forest.text (("hello").data) Forest.nil) Forest.nil

/-- A content root containing a Svelte marker div (so the Python `div` loop
variable gets bound) followed by a link-only navigational `<ul>` and a
paragraph. -/
def docC7 : Forest :=
  Forest.elem 0 (("body").data) []
    (Forest.elem 1 (("main").data) []
      (Forest.elem 2 (("div").data) [((("data-svelte-h").data), (("x").data))]
        (Forest.text (("t").data) Forest.nil)
        (Forest.elem 3 (("ul").data) [((("role").data), (("navigation").data))]
          (Forest.elem 4 (("li").data) []
            (Forest.elem 5 (("a").data) [((("href").data), (("/x").data))]
              (Forest.text (("Home").data) Forest.nil)
              Forest.nil)
            Forest.nil)
          (Forest.elem 6 (("p").data) []
            (Forest.text (("hello").data) Forest.nil)
            Forest.nil)))
      Forest.nil)
    Forest.nil

/-- C3: on a fetched page whose document has no `<main>`, no `<article>`, no
content-class/id `<div>` and no `<body>`, sitemap-mode page processing does
NOT recover: `clean_content` dereferences `None` (an `AttributeError` at
`main.find_all`), the exception propagates out of `parse`, and no record -
empty or otherwise - is produced.  The spec's recovery requirement is the
evident intent (the dead `if cleaned_content else ''` guards in `parse`
anticipate a missing content root), so this is a code bug. -/
theorem claim3_malformed_doc_raises :
    sitemapParsePage { visited := [], excludedUrls := [], pathExclusions := [] }
        docC3 (("https://a.com/x").data) 200 = Except.error PyExn.attributeError ∧
    selectMain docC3 = none := by
  refine ⟨?_, ?_⟩ <;> decide

/-- C7: `clean_content` does NOT remove link-only `<ul>` elements with
navigational role markers.  The loops at lines 159-163 iterate over the
matching `<ul>`s but call `div.decompose()` on the stale loop variable of the
earlier div passes instead of `ul.decompose()`.  On `docC7` the cleaning
succeeds and the returned content root still contains the
`role="navigation"` `<ul>`. -/
theorem claim7_nav_ul_survives :
    (match cleanContent docC7 with
     | Except.ok q => existsUl ulRoleMatch q.2.2.2
     | Except.error _ => false) = true := by
  decide

/-! ## WebsiteLinksScraper (link-audit mode)

`urljoin` (for relative hrefs) and `urlparse().netloc` are urllib
collaborators; `WebsiteLinksScraper.parse` is parameterized over them, and the
concrete theorems instantiate `netloc` with the model below. -/

/-- The suffix after the first occurrence of a pattern, if any. -/
def afterFirst (pat : Str) : Str → Option Str
  | [] => none
  | c :: rest =>
      if pat.isPrefixOf (c :: rest) then some ((c :: rest).drop pat.length)
      else afterFirst pat rest

/-- Modelled collaborator `urllib.parse.urlparse(u).netloc` for absolute
http(s) URLs: the text between the scheme separator and the next slash,
query or fragment delimiter. -/
def netlocOfHttp (u : Str) : Str :=
  match afterFirst (("://").data) u with
  | none => []
  | some rest => rest.takeWhile (fun c => c ≠ '/' ∧ c ≠ '?' ∧ c ≠ '#')

/-- One link record of link-audit mode (`link_data`, lines 376-383 plus the
`link_category` added at classification). -/
structure LinkItem where
  url : Str
  anchorText : Str
  linkType : Str
  indexStatus : Str
  target : Str
  category : Str
  deriving DecidableEq

/-- A record appended to the crawl's result collection in link-audit mode. -/
inductive LRec where
  | pageInfo (url : Str) (status : Nat) (indexStatus followStatus title metaDesc : Str)
  | link (item : LinkItem)
  | summary (total internal external follow nofollow indexL noindexL : Nat)
  deriving DecidableEq

/-- All anchors carrying an `href` attribute (`find_all('a', href=True)` -
the attribute may be empty), in document order, with attributes and children. -/
def collectAnchorsHref : Forest → List (List (Str × Str) × Forest)
  | Forest.nil => []
  | Forest.text _ r => collectAnchorsHref r
  | Forest.elem _ t a cs r =>
      (if t = ("a").data && (getAttr a (("href").data)).isSome then [(a, cs)] else [])
        ++ collectAnchorsHref cs ++ collectAnchorsHref r

/-- `link_type` derivation: `nofollow` iff the `rel` attribute is non-empty
and contains `nofollow` case-insensitively. -/
def linkTypeOf (rel : Str) : Str :=
  if !rel.isEmpty && containsSub (("nofollow").data) (lowerStr rel)
  then ("nofollow").data else ("follow").data

/-- `link_category` derivation: compare the resolved link's netloc with the
job's base domain. -/
def categoryOf (baseDomain : Str) (netlocOf : Str → Str) (href : Str) : Str :=
  if netlocOf href = baseDomain then ("internal").data else ("external").data

/-- The loop body of `WebsiteLinksScraper.parse` for one anchor: `none` when
the stripped href is empty (the anchor is skipped and produces no record). -/
def linkRecordOf (baseDomain : Str) (resolve netlocOf : Str → Str)
    (anchor : List (Str × Str) × Forest) : Option LinkItem :=
  let href0 := pyStrip ((getAttr anchor.1 (("href").data)).getD [])
  if href0.isEmpty then none
  else
    let href1 :=
      if (("http://").data).isPrefixOf href0 || (("https://").data).isPrefixOf href0
      then href0 else resolve href0
    let href := rstripSlash href1
    some
      { url := href,
        anchorText := getTextStripJoin anchor.2,
        linkType := linkTypeOf ((getAttr anchor.1 (("rel").data)).getD []),
        indexStatus := ("index").data,
        target := (getAttr anchor.1 (("target").data)).getD [],
        category := categoryOf baseDomain netlocOf href }

/-- `WebsiteLinksScraper.parse`: page-info record, one record per non-empty
href anchor in document order, then the summary record whose `total_links` is
`len(anchor_tags)` - the number of href-bearing anchors, including the
skipped empty ones - while the remaining counts are computed over the
emitted link records. -/
def linksParse (doc : Forest) (selfUrl baseDomain : Str) (status : Nat)
    (resolve netlocOf : Str → Str) : List LRec :=
  let robotsMeta := (xpathMetaContent (("robots").data) doc).getD []
  let indexStatus :=
    if !robotsMeta.isEmpty && containsSub (("noindex").data) (lowerStr robotsMeta)
    then ("noindex").data else ("index").data
  let followStatus :=
    if !robotsMeta.isEmpty && containsSub (("nofollow").data) (lowerStr robotsMeta)
    then ("nofollow").data else ("follow").data
  let ancs := collectAnchorsHref doc
  let items := ancs.filterMap (linkRecordOf baseDomain resolve netlocOf)
  let internal := items.filter (fun i => i.category = ("internal").data)
  let external := items.filter (fun i => i.category = ("external").data)
  LRec.pageInfo selfUrl status indexStatus followStatus
      (pyStrip (xpathFirstText (("title").data) doc))
      (pyStrip ((xpathMetaContent (("description").data) doc).getD []))
    :: items.map LRec.link
    ++ [LRec.summary ancs.length internal.length external.length
          ((internal ++ external).filter (fun i => i.linkType = ("follow").data)).length
          ((internal ++ external).filter (fun i => i.linkType = ("nofollow").data)).length
          ((internal ++ external).filter (fun i => i.indexStatus = ("index").data)).length
          ((internal ++ external).filter (fun i => i.indexStatus = ("noindex").data)).length]

/-- Is this record a link record? -/
def isLinkRec : LRec → Bool
  | LRec.link _ => true
  | _ => false

/-- The `total_links` field of a summary record. -/
def summaryTotal : LRec → Option Nat
  | LRec.summary t _ _ _ _ _ _ => some t
  | _ => none

/-- The `total_links` of the last record of an output, if it is a summary. -/
def lastSummaryTotal (l : List LRec) : Option Nat :=
  match l.getLast? with
  | some r => summaryTotal r
  | none => none

/-- A page with one empty-href anchor (skipped, no record) and one external
link. -/
def docC5 : Forest :=
  Forest.elem 0 (("body").data) []
    (Forest.elem 1 (("a").data) [((("href").data), [])]
      (Forest.text (("x").data) Forest.nil)
      (Forest.elem 2 (("a").data) [((("href").data), (("https://x.com/a").data))]
        (Forest.text (("y").data) Forest.nil)
        Forest.nil))
    Forest.nil

/-! ## ContactScraper (contact mode) -/

/-- Local-part markers rejected by the email filter. -/
def noReplyMarkers : List Str :=
  [("noreply").data, ("no-reply").data, ("donotreply").data]

/-- Domain-part placeholder markers rejected by the email filter. -/
def placeholderMarkers : List Str :=
  [("example").data, ("domain").data, ("test").data]

/-- The per-candidate filter condition of `ContactScraper.parse_page`
(lines 507-512), with Python's short-circuit evaluation: if the local part
(everything before the first `@`) contains a no-reply marker the candidate is
rejected without touching `split('@')[1]`; otherwise `split('@')[1]` is
evaluated and raises `IndexError` when the candidate contains no `@`. -/
def emailCheck (email : Str) : Except PyExn Bool :=
  let parts := splitOnChar '@' email
  let localPart := parts.headD []
  if noReplyMarkers.any (fun t => containsSub t (lowerStr localPart)) then
    Except.ok false
  else
    match parts with
    | _ :: domainPart :: _ =>
        Except.ok (!(placeholderMarkers.any (fun t => containsSub t (lowerStr domainPart)))
          && containsSub ([ '.' ]) domainPart)
    | _ => Except.error PyExn.indexError

/-- The `valid_emails` list comprehension: keep the candidates passing the
filter, propagating the first exception. -/
def filterValidEmails : List Str → Except PyExn (List Str)
  | [] => Except.ok []
  | e :: rest =>
      match emailCheck e with
      | Except.error ex => Except.error ex
      | Except.ok b =>
          match filterValidEmails rest with
          | Except.error ex => Except.error ex
          | Except.ok r => Except.ok (if b then e :: r else r)

/-- Hrefs of all `mailto:` anchors
(`find_all('a', href=lambda x: x and x.startswith('mailto:'))`). -/
def collectMailtoHrefs : Forest → List Str
  | Forest.nil => []
  | Forest.text _ r => collectMailtoHrefs r
  | Forest.elem _ t a cs r =>
      (match getAttr a (("href").data) with
       | some h =>
           if t = ("a").data && !h.isEmpty && (("mailto:").data).isPrefixOf h
           then [h] else []
       | none => []) ++ collectMailtoHrefs cs ++ collectMailtoHrefs r

/-- `mailto_emails`: strip the `mailto:` prefix (via `str.replace`), drop the
query string, trim. -/
def mailtoEmails (doc : Forest) : List Str :=
  (collectMailtoHrefs doc).map (fun h =>
    pyStrip ((splitOnChar '?' (pyReplace (("mailto:").data) [] h)).headD []))

/-- Email extraction of `ContactScraper.parse_page`: mailto targets plus the
regex matches over the visible text (`textMatches` models
`re.findall(email_pattern, soup.get_text())`; every match of that pattern
contains an `@`), deduplicated by `list(set(...))`, then filtered. -/
def extractEmails (doc : Forest) (textMatches : Str → List Str) :
    Except PyExn (List Str) :=
  filterValidEmails (pySetList (mailtoEmails doc ++ textMatches (getTextPlain doc)))

/-- One iteration outcome of the `phonenumbers.PhoneNumberMatcher` collaborator:
a match (already formatted to E.164 by `format_number`, per the source) or an
internal failure raised at that point of the iteration. -/
inductive MatchEv where
  | found (e164 : Str)
  | failure
  deriving DecidableEq

/-- The `for match in PhoneNumberMatcher(...)` loop: append each formatted
match; a failure raises with the local `phone_numbers` list in the state it
had reached. -/
def phoneLoop (acc : List Str) : List MatchEv → Except (List Str) (List Str)
  | [] => Except.ok acc
  | MatchEv.found p :: rest => phoneLoop (acc ++ [p]) rest
  | MatchEv.failure :: _ => Except.error acc

/-- The phone-extraction block of `ContactScraper.parse_page` (lines 515-521):
the `try/except` catches the matcher failure, logs it, and leaves
`phone_numbers` holding whatever was appended before the failure. -/
def extractPhoneNumbersFrom (evs : List MatchEv) : List Str :=
  match phoneLoop [] evs with
  | Except.ok l => l
  | Except.error l => l

/-- The contact record of `ContactScraper.parse_page`. -/
structure ContactData where
  url : Str
  emails : List Str
  phoneNumbers : List Str
  foundOnPage : Str
  status : Str
  errorMessage : Option Str
  deriving DecidableEq

/-- `ContactScraper.parse_page`: a non-200 response short-circuits to an
error record (the numeric status interpolated into the Python message is
abbreviated to the constant prefix); otherwise emails are extracted (their
exceptions propagate - no try/except in `parse_page` covers them), phones are
extracted with their internal try/except, and the record is built with
deduplicated fields and a found/not_found status. -/
def contactParsePage (selfUrl respUrl : Str) (status : Nat) (doc : Forest)
    (textMatches : Str → List Str) (phoneEvents : Str → List MatchEv) :
    Except PyExn ContactData :=
  let currentUrl := rstripSlash respUrl
  if status ≠ 200 then
    Except.ok
      { url := selfUrl, emails := [], phoneNumbers := [],
        foundOnPage := currentUrl, status := ("error").data,
        errorMessage := some (("Non-200 status code").data) }
  else
    match extractEmails doc textMatches with
    | Except.error e => Except.error e
    | Except.ok validEmails =>
        let phones := extractPhoneNumbersFrom (phoneEvents (getTextPlain doc))
        Except.ok
          { url := selfUrl, emails := pySetList validEmails,
            phoneNumbers := pySetList phones,
            foundOnPage := currentUrl,
            status := if !validEmails.isEmpty || !phones.isEmpty
                      then ("found").data else ("not_found").data,
            errorMessage := none }

/-- A contact page advertising one mailto address with a query string. -/
def docC4 : Forest :=
  Forest.elem 0 (("body").data) []
    (Forest.elem 1 (("a").data)
      [((("href").data), (("mailto:sales@acme.co?subject=hi").data))]
      (Forest.text (("Email sales").data) Forest.nil)
      Forest.nil)
    Forest.nil

/-- A page whose only anchor is a malformed mailto link with no `@`. -/
def docC9 : Forest :=
  Forest.elem 0 (("body").data) []
    (Forest.elem 1 (("a").data) [((("href").data), (("mailto:contact-us").data))]
      (Forest.text (("Contact").data) Forest.nil)
      Forest.nil)
    Forest.nil

/-! ### Claims about link-audit mode -/

theorem length_filter_split {α : Type} (l : List α) (p : α → Bool) :
    (l.filter p).length + (l.filter (fun x => !(p x))).length = l.length := by
  induction l with
  | nil => simp
  | cons a rest ih =>
      by_cases h : p a = true <;> simp [List.filter_cons, h] <;> omega

theorem categoryOf_cases (baseDomain : Str) (netlocOf : Str → Str) (href : Str) :
    categoryOf baseDomain netlocOf href = ("internal").data ∨
    categoryOf baseDomain netlocOf href = ("external").data := by
  unfold categoryOf
  by_cases hc : netlocOf href = baseDomain
  · left
    rw [if_pos hc]
  · right
    rw [if_neg hc]

theorem linkTypeOf_cases (rel : Str) :
    linkTypeOf rel = ("follow").data ∨ linkTypeOf rel = ("nofollow").data := by
  unfold linkTypeOf
  by_cases hr : (!rel.isEmpty && containsSub (("nofollow").data) (lowerStr rel)) = true
  · right
    rw [if_pos hr]
  · left
    rw [if_neg hr]

theorem linkRecordOf_category (baseDomain : Str) (resolve netlocOf : Str → Str)
    (anchor : List (Str × Str) × Forest) (item : LinkItem)
    (h : linkRecordOf baseDomain resolve netlocOf anchor = some item) :
    item.category = ("internal").data ∨ item.category = ("external").data := by
  unfold linkRecordOf at h
  by_cases h0 : (pyStrip ((getAttr anchor.1 (("href").data)).getD [])).isEmpty = true
  · simp [h0] at h
  · simp only [Bool.not_eq_true] at h0
    simp only [h0, Bool.false_eq_true, if_false, Option.some.injEq] at h
    rw [← h]
    exact categoryOf_cases baseDomain netlocOf _

theorem linkRecordOf_linkType (baseDomain : Str) (resolve netlocOf : Str → Str)
    (anchor : List (Str × Str) × Forest) (item : LinkItem)
    (h : linkRecordOf baseDomain resolve netlocOf anchor = some item) :
    item.linkType = ("follow").data ∨ item.linkType = ("nofollow").data := by
  unfold linkRecordOf at h
  by_cases h0 : (pyStrip ((getAttr anchor.1 (("href").data)).getD [])).isEmpty = true
  · simp [h0] at h
  · simp only [Bool.not_eq_true] at h0
    simp only [h0, Bool.false_eq_true, if_false, Option.some.injEq] at h
    rw [← h]
    exact linkTypeOf_cases _

theorem filter_pair_length {α : Type} (l : List α) (p q : α → Bool)
    (h : ∀ x ∈ l, p x = true ∨ q x = true)
    (hx : ∀ x ∈ l, ¬(p x = true ∧ q x = true)) :
    (l.filter p).length + (l.filter q).length = l.length := by
  have hcong : l.filter q = l.filter (fun x => !(p x)) := by
    apply List.filter_congr
    intro x hxl
    rcases h x hxl with hp | hq
    · have : q x = false := by
        rcases Bool.eq_false_or_eq_true (q x) with ht | hf
        · exact absurd ⟨hp, ht⟩ (hx x hxl)
        · exact hf
      simp [this, hp]
    · have : p x = false := by
        rcases Bool.eq_false_or_eq_true (p x) with ht | hf
        · exact absurd ⟨ht, hq⟩ (hx x hxl)
        · exact hf
      simp [this, hq]
  rw [hcong]
  exact length_filter_split l p

/-- C5 counterexample: on a page with one empty-href anchor and one real
link, the trailing summary's `total_links` is 2 (it counts `len(anchor_tags)`,
href-bearing anchors including the skipped empty one) while only one
LinkRecord is emitted - refuting `total_links` = number of emitted
LinkRecords. -/
theorem claim5_counterexample :
    lastSummaryTotal (linksParse docC5 (("https://a.com").data) (("a.com").data) 200
      (fun h => h) netlocOfHttp) = some 2 ∧
    ((linksParse docC5 (("https://a.com").data) (("a.com").data) 200
      (fun h => h) netlocOfHttp).filter isLinkRec).length = 1 := by
  refine ⟨?_, ?_⟩ <;> decide

/-- C5 (amended): for every input page the summary record is emitted last,
after the page-info record and all link records; its internal/external and
follow/nofollow counts are computed over exactly the emitted link records
(internal + external = follow + nofollow = number of LinkRecords), while
`total_links` is the number of anchors carrying an `href` attribute, which
can exceed the LinkRecord count when empty or whitespace-only hrefs are
present (those anchors are skipped and produce no LinkRecord). -/
theorem claim5_summary_counts (doc : Forest) (selfUrl baseDomain : Str)
    (status : Nat) (resolve netlocOf : Str → Str) :
    ∃ first mid t i e f nf ix nx,
      linksParse doc selfUrl baseDomain status resolve netlocOf =
        first :: (mid ++ [LRec.summary t i e f nf ix nx]) ∧
      (∀ r ∈ mid, isLinkRec r = true) ∧
      i + e = mid.length ∧
      f + nf = mid.length ∧
      t = (collectAnchorsHref doc).length ∧
      mid.length ≤ t := by
  have hmem : ∀ x ∈ (collectAnchorsHref doc).filterMap
      (linkRecordOf baseDomain resolve netlocOf),
      (x.category = ("internal").data ∨ x.category = ("external").data) ∧
      (x.linkType = ("follow").data ∨ x.linkType = ("nofollow").data) := by
    intro x hx
    obtain ⟨anchor, _, hsome⟩ := List.mem_filterMap.mp hx
    exact ⟨linkRecordOf_category _ _ _ _ _ hsome, linkRecordOf_linkType _ _ _ _ _ hsome⟩
  simp only [linksParse]
  refine ⟨_, _, _, _, _, _, _, _, _, rfl, ?_, ?_, ?_, ?_, ?_⟩
  · intro r hr
    obtain ⟨x, _, rfl⟩ := List.mem_map.mp hr
    rfl
  · rw [List.length_map]
    apply filter_pair_length
    · intro x hx
      rcases (hmem x hx).1 with h1 | h1
      · left
        simp [h1]
      · right
        simp [h1]
    · intro x hx hboth
      simp only [decide_eq_true_eq] at hboth
      have hq := hboth.1.symm.trans hboth.2
      exact absurd hq (by decide)
  · have hsplit : (((collectAnchorsHref doc).filterMap
        (linkRecordOf baseDomain resolve netlocOf)).filter
          (fun i => i.category = ("internal").data)).length +
        (((collectAnchorsHref doc).filterMap
        (linkRecordOf baseDomain resolve netlocOf)).filter
          (fun i => i.category = ("external").data)).length =
        ((collectAnchorsHref doc).filterMap
          (linkRecordOf baseDomain resolve netlocOf)).length := by
      apply filter_pair_length
      · intro x hx
        rcases (hmem x hx).1 with h1 | h1
        · left
          simp [h1]
        · right
          simp [h1]
      · intro x hx hboth
        simp only [decide_eq_true_eq] at hboth
        have hq := hboth.1.symm.trans hboth.2
        exact absurd hq (by decide)
    have hfnf := filter_pair_length
      (((collectAnchorsHref doc).filterMap
          (linkRecordOf baseDomain resolve netlocOf)).filter
            (fun i => i.category = ("internal").data) ++
        ((collectAnchorsHref doc).filterMap
          (linkRecordOf baseDomain resolve netlocOf)).filter
            (fun i => i.category = ("external").data))
      (fun i => decide (i.linkType = ("follow").data))
      (fun i => decide (i.linkType = ("nofollow").data))
      (by
        intro x hx
        have hxitems : x ∈ (collectAnchorsHref doc).filterMap
            (linkRecordOf baseDomain resolve netlocOf) := by
          rcases List.mem_append.mp hx with h1 | h1
          · exact (List.mem_filter.mp h1).1
          · exact (List.mem_filter.mp h1).1
        rcases (hmem x hxitems).2 with h1 | h1
        · left
          simp [h1]
        · right
          simp [h1])
      (by
        intro x hx hboth
        simp only [decide_eq_true_eq] at hboth
        have hq := hboth.1.symm.trans hboth.2
        exact absurd hq (by decide))
    rw [List.length_append] at hfnf
    rw [List.length_map]
    simp only [show ("follow").data = [ 'f', 'o', 'l', 'l', 'o', 'w' ] from rfl,
        show ("nofollow").data = [ 'n', 'o', 'f', 'o', 'l', 'l', 'o', 'w' ] from rfl,
        show ("internal").data = [ 'i', 'n', 't', 'e', 'r', 'n', 'a', 'l' ] from rfl,
        show ("external").data = [ 'e', 'x', 't', 'e', 'r', 'n', 'a', 'l' ] from rfl]
      at hfnf hsplit
    omega
  · rfl
  · rw [List.length_map]
    exact List.length_filterMap_le _ _

/-! ### Claims about contact mode -/

theorem emailCheck_two_parts (email l d : Str)
    (h : splitOnChar '@' email = [l, d]) :
    emailCheck email = Except.ok true ↔
      (noReplyMarkers.any (fun t => containsSub t (lowerStr l)) = false ∧
       placeholderMarkers.any (fun t => containsSub t (lowerStr d)) = false ∧
       containsSub ([ '.' ]) d = true) := by
  unfold emailCheck
  rw [h]
  simp only [List.headD_cons]
  by_cases hm : noReplyMarkers.any (fun t => containsSub t (lowerStr l)) = true
  · rw [if_pos hm]
    constructor
    · intro hcontra
      exact absurd hcontra (by simp)
    · intro hrhs
      rw [hm] at hrhs
      exact absurd hrhs.1 (by simp)
  · rw [if_neg hm]
    simp only [Bool.not_eq_true] at hm
    simp [hm, Bool.and_eq_true, Bool.not_eq_true']

theorem filterValidEmails_mem (cands res : List Str)
    (h : filterValidEmails cands = Except.ok res) (email : Str) :
    email ∈ res ↔ (email ∈ cands ∧ emailCheck email = Except.ok true) := by
  induction cands generalizing res with
  | nil =>
      simp only [filterValidEmails, Except.ok.injEq] at h
      subst h
      simp
  | cons a rest ih =>
      unfold filterValidEmails at h
      match hc : emailCheck a with
      | Except.error ex =>
          rw [hc] at h
          exact absurd h (by simp)
      | Except.ok b =>
          rw [hc] at h
          match hr : filterValidEmails rest with
          | Except.error ex =>
              rw [hr] at h
              exact absurd h (by simp)
          | Except.ok r2 =>
              rw [hr] at h
              simp only [Except.ok.injEq] at h
              subst h
              have hih := ih r2 hr
              by_cases hb : b = true
              · subst hb
                by_cases hea : email = a
                · subst hea
                  simp [hih, hc]
                · simp [hea, hih]
              · have hb2 : b = false := by
                  rcases Bool.eq_false_or_eq_true b with ht | hf
                  · exact absurd ht hb
                  · exact hf
                subst hb2
                by_cases hea : email = a
                · subst hea
                  simp [hih, hc]
                · simp [hea, hih]

/-- C4: the extracted email set is the union of mailto targets (query string
stripped) and the regex matches over visible text, filtered exactly as
claimed: a candidate that splits at `@` into local part l and domain part d
is kept iff l contains no no-reply marker, d contains no placeholder marker,
and d contains a dot; no-reply@example.com and info@domain.test are rejected,
sales@acme.co is kept, and on `docC4` the mailto target has its query
stripped and the union is filtered accordingly. -/
theorem claim4_email_filter :
    (∀ email l d, splitOnChar '@' email = [l, d] →
      (emailCheck email = Except.ok true ↔
        (noReplyMarkers.any (fun t => containsSub t (lowerStr l)) = false ∧
         placeholderMarkers.any (fun t => containsSub t (lowerStr d)) = false ∧
         containsSub ([ '.' ]) d = true))) ∧
    (∀ cands res, filterValidEmails cands = Except.ok res →
      ∀ email, email ∈ res ↔ (email ∈ cands ∧ emailCheck email = Except.ok true)) ∧
    emailCheck (("no-reply@example.com").data) = Except.ok false ∧
    emailCheck (("info@domain.test").data) = Except.ok false ∧
    emailCheck (("sales@acme.co").data) = Except.ok true ∧
    mailtoEmails docC4 = [(("sales@acme.co").data)] ∧
    extractEmails docC4 (fun _ => [(("info@domain.test").data)]) =
      Except.ok [(("sales@acme.co").data)] :=
  ⟨fun email l d h => emailCheck_two_parts email l d h,
   fun cands res h email => filterValidEmails_mem cands res h email,
   by decide, by decide, by decide, by decide, by decide⟩

theorem claim4_email_filter_witness :
    emailCheck (("sales@acme.co").data) = Except.ok true ∧
    (("sales@acme.co").data) ∈ [(("sales@acme.co").data)] :=
  ⟨(claim4_email_filter.1 (("sales@acme.co").data) (("sales").data) (("acme.co").data)
      (by decide)).mpr (by decide),
   ((claim4_email_filter.2.1 [(("sales@acme.co").data)] [(("sales@acme.co").data)]
      (by decide)) (("sales@acme.co").data)).mpr (by decide)⟩

/-- C8 counterexample: when the phone matcher yields one match and then
raises, the exception is caught but the page's phone result is the singleton
of the already-formatted match - a partially-filled set, not the empty set
the claim requires. -/
theorem claim8_counterexample :
    phoneLoop [] [MatchEv.found (("+14155550100").data), MatchEv.failure] =
      Except.error [(("+14155550100").data)] ∧
    extractPhoneNumbersFrom [MatchEv.found (("+14155550100").data), MatchEv.failure] =
      [(("+14155550100").data)] ∧
    extractPhoneNumbersFrom [MatchEv.found (("+14155550100").data), MatchEv.failure] ≠ [] := by
  refine ⟨?_, ?_, ?_⟩ <;> decide

theorem phoneLoop_found_run (pre : List Str) (acc : List Str) (evs : List MatchEv) :
    phoneLoop acc (pre.map MatchEv.found ++ evs) = phoneLoop (acc ++ pre) evs := by
  induction pre generalizing acc with
  | nil => simp
  | cons p rest ih =>
      simp only [List.map_cons, List.cons_append, phoneLoop, List.append_eq]
      rw [ih]
      simp [List.append_assoc]

/-- C8 (amended): a matcher failure is caught and never propagates, and the
page's phone result is exactly the matches formatted before the failure
point - empty only when the failure precedes the first match; with no
failure, all matches are kept. -/
theorem claim8_failure_keeps_partial (pre : List Str) (post : List MatchEv) :
    extractPhoneNumbersFrom (pre.map MatchEv.found ++ MatchEv.failure :: post) = pre ∧
    extractPhoneNumbersFrom (pre.map MatchEv.found) = pre := by
  constructor
  · unfold extractPhoneNumbersFrom
    rw [phoneLoop_found_run pre [] (MatchEv.failure :: post)]
    simp [phoneLoop]
  · unfold extractPhoneNumbersFrom
    have hmap := phoneLoop_found_run pre [] []
    simp only [List.append_nil, List.nil_append] at hmap
    rw [hmap]
    simp [phoneLoop]

/-- C9: a page whose only anchor is `href="mailto:contact-us"` (no `@` in the
target) makes `ContactScraper.parse_page` raise `IndexError` at
`email.split('@')[1]` - for any regex-match collaborator and any phone
matcher - instead of producing a contact record: the filter is only total on
candidates containing `@`. -/
theorem claim9_mailto_without_at_raises (textMatches : Str → List Str)
    (phoneEvents : Str → List MatchEv) :
    contactParsePage (("https://c.com").data) (("https://c.com").data) 200 docC9
      textMatches phoneEvents = Except.error PyExn.indexError := by
  have hmail : mailtoEmails docC9 = [(("contact-us").data)] := by decide
  have hchk : emailCheck (("contact-us").data) = Except.error PyExn.indexError := by
    decide
  have hset : pySetList ((("contact-us").data) :: textMatches (getTextPlain docC9)) =
      (("contact-us").data) ::
        pySetAux [(("contact-us").data)] (textMatches (getTextPlain docC9)) := by
    simp [pySetList, pySetAux]
  have hext : extractEmails docC9 textMatches = Except.error PyExn.indexError := by
    unfold extractEmails
    rw [hmail]
    simp only [List.singleton_append]
    rw [hset]
    unfold filterValidEmails
    rw [hchk]
  unfold contactParsePage
  rw [if_neg (by decide : ¬ ((200 : Nat) ≠ 200))]
  rw [hext]
